import Mathlib

/-!
Verification of the gaze-tracking / transcription pipeline of this repository.

The geometry model (`Monitor`, `MonitorMesh`, `detect_monitor_mesh`,
`normalize_coordinates`, `denormalize_coordinates`) is embedded from
`src/lib/gaze-ml-improved.py` and `src/lib/gaze-tracker.py` over exact
arithmetic: machine ints become `Int`, Python floats become `Rat` (for the
purely rational parts) or `Real` (where the source uses `exp`, `sqrt`,
`arctan2` or a real power).  Python `int(x)` truncation toward zero is
`pyInt` / `pyIntR`.
-/

/-- A monitor rectangle, from the `Monitor` dataclass of
`gaze-ml-improved.py` (fields `x, y, width, height, is_primary, name`;
`scale_factor` is never read and is omitted). -/
structure Monitor where
  x : Int
  y : Int
  width : Int
  height : Int
  is_primary : Bool
  name : String
deriving DecidableEq, Repr

/-- Derived attribute `right = x + width`. -/
def Monitor.right (m : Monitor) : Int := m.x + m.width

/-- Derived attribute `bottom = y + height`. -/
def Monitor.bottom (m : Monitor) : Int := m.y + m.height

/-- The monitor mesh dataclass of `gaze-ml-improved.py`: the monitor list
plus the virtual-desktop rectangle and the designated primary monitor. -/
structure MonitorMesh where
  monitors : List Monitor
  virtual_width : Int
  virtual_height : Int
  virtual_left : Int
  virtual_top : Int
  primary_monitor : Option Monitor
deriving DecidableEq, Repr

/-- Post-init selection of the primary monitor: the first monitor flagged
primary, falling back to the first monitor; `none` when the list is empty
(`MonitorMesh.__post_init__`). -/
def pickPrimary (ms : List Monitor) : Option Monitor :=
  (ms.find? (fun m => m.is_primary)) <|> ms.head?

/-- Construction of a `MonitorMesh` as the dataclass constructor followed by
`__post_init__`. -/
def mkMonitorMesh (ms : List Monitor) (vw vh vl vt : Int) : MonitorMesh :=
  ⟨ms, vw, vh, vl, vt, pickPrimary ms⟩

/-- `virtual_right` property. -/
def MonitorMesh.virtual_right (mesh : MonitorMesh) : Int :=
  mesh.virtual_left + mesh.virtual_width

/-- `virtual_bottom` property. -/
def MonitorMesh.virtual_bottom (mesh : MonitorMesh) : Int :=
  mesh.virtual_top + mesh.virtual_height

/-- Minimum of a list of ints, as Python `min` over a non-empty list
(0 for the empty list, which the call sites never pass). -/
def minList (xs : List Int) : Int :=
  match xs with
  | [] => 0
  | h :: t => t.foldl min h

/-- Maximum of a list of ints, as Python `max` over a non-empty list. -/
def maxList (xs : List Int) : Int :=
  match xs with
  | [] => 0
  | h :: t => t.foldl max h

/-- Monitor detection of `gaze-ml-improved.py` (`detect_monitor_mesh`):
the platform enumeration is an external collaborator and is passed in as
the list it produced; a non-empty enumeration yields the union
virtual-desktop rectangle, an empty (or failed) enumeration yields the
single 1920x1080 fallback monitor. -/
def detect_monitor_mesh (enumerated : List Monitor) : MonitorMesh :=
  if enumerated ≠ [] then
    let vl := minList (enumerated.map (fun m => m.x))
    let vt := minList (enumerated.map (fun m => m.y))
    let vr := maxList (enumerated.map (fun m => m.right))
    let vb := maxList (enumerated.map (fun m => m.bottom))
    mkMonitorMesh enumerated (vr - vl) (vb - vt) vl vt
  else
    mkMonitorMesh [⟨0, 0, 1920, 1080, true, "Default_Monitor"⟩] 1920 1080 0 0

/-- Monitor detection of `gaze-tracker.py`: on an empty enumeration the
fallback monitor takes the screen size reported by the toolkit (external
collaborator, passed as `screenW`/`screenH`), and the union rectangle is
then computed from the resulting monitor list. -/
def detect_monitor_mesh_v2 (enumerated : List Monitor) (screenW screenH : Int) :
    MonitorMesh :=
  let ms :=
    if enumerated = [] then [⟨0, 0, screenW, screenH, true, "Default_Monitor"⟩]
    else enumerated
  let vl := minList (ms.map (fun m => m.x))
  let vt := minList (ms.map (fun m => m.y))
  let vr := maxList (ms.map (fun m => m.right))
  let vb := maxList (ms.map (fun m => m.bottom))
  mkMonitorMesh ms (vr - vl) (vb - vt) vl vt

/-- The screen-dimension override performed by `main` of
`gaze-ml-improved.py` when both `--screen-width` and `--screen-height`
are supplied: it overwrites the virtual dimensions in place, leaving the
monitor list untouched. -/
def override_screen_dims (mesh : MonitorMesh) (w h : Int) : MonitorMesh :=
  { mesh with virtual_width := w, virtual_height := h }

/-- The spec invariant: the virtual rectangle contains every monitor
rectangle. -/
def meshContains (mesh : MonitorMesh) : Prop :=
  ∀ m ∈ mesh.monitors,
    mesh.virtual_left ≤ m.x ∧ mesh.virtual_top ≤ m.y ∧
    m.x + m.width ≤ mesh.virtual_left + mesh.virtual_width ∧
    m.y + m.height ≤ mesh.virtual_top + mesh.virtual_height

instance (mesh : MonitorMesh) : Decidable (meshContains mesh) := by
  unfold meshContains; infer_instance

/-- Python `int(x)` truncation toward zero on a rational. -/
def pyInt (q : Rat) : Int := if 0 ≤ q then ⌊q⌋ else ⌈q⌉

/-- `MonitorMesh.normalize_coordinates` of `gaze-ml-improved.py`: each axis
divides by the virtual dimension when it is positive and yields `0.0`
otherwise. -/
def normalize_coordinates (mesh : MonitorMesh) (x y : Rat) : Rat × Rat :=
  ((if 0 < mesh.virtual_width then
      (x - (mesh.virtual_left : Rat)) / (mesh.virtual_width : Rat) else 0),
   (if 0 < mesh.virtual_height then
      (y - (mesh.virtual_top : Rat)) / (mesh.virtual_height : Rat) else 0))

/-- `MonitorMesh.denormalize_coordinates` of `gaze-ml-improved.py`:
`int(virtual_left + norm * virtual_dim)` per axis. -/
def denormalize_coordinates (mesh : MonitorMesh) (nx ny : Rat) : Int × Int :=
  (pyInt ((mesh.virtual_left : Rat) + nx * (mesh.virtual_width : Rat)),
   pyInt ((mesh.virtual_top : Rat) + ny * (mesh.virtual_height : Rat)))

-- Helper lemmas for the union bounds.

lemma foldl_min_le (t : List Int) : ∀ (h x : Int), x ∈ h :: t → t.foldl min h ≤ x := by
  induction t with
  | nil =>
      intro h x hx
      simp only [List.mem_singleton] at hx
      simp [hx]
  | cons a t ih =>
      intro h x hx
      rcases List.mem_cons.mp hx with rfl | hx2
      · calc t.foldl min (min x a) ≤ min x a := ih (min x a) (min x a) (List.mem_cons_self _ _)
          _ ≤ x := min_le_left _ _
      · rcases List.mem_cons.mp hx2 with rfl | hx3
        · calc t.foldl min (min h x) ≤ min h x := ih (min h x) (min h x) (List.mem_cons_self _ _)
            _ ≤ x := min_le_right _ _
        · exact ih (min h a) x (List.mem_cons_of_mem _ hx3)

lemma le_foldl_max (t : List Int) : ∀ (h x : Int), x ∈ h :: t → x ≤ t.foldl max h := by
  induction t with
  | nil =>
      intro h x hx
      simp only [List.mem_singleton] at hx
      simp [hx]
  | cons a t ih =>
      intro h x hx
      rcases List.mem_cons.mp hx with rfl | hx2
      · calc x ≤ max x a := le_max_left _ _
          _ ≤ t.foldl max (max x a) := ih (max x a) (max x a) (List.mem_cons_self _ _)
      · rcases List.mem_cons.mp hx2 with rfl | hx3
        · calc x ≤ max h x := le_max_right _ _
            _ ≤ t.foldl max (max h x) := ih (max h x) (max h x) (List.mem_cons_self _ _)
        · exact ih (max h a) x (List.mem_cons_of_mem _ hx3)

lemma minList_le {xs : List Int} {x : Int} (hx : x ∈ xs) : minList xs ≤ x := by
  cases xs with
  | nil => cases hx
  | cons h t => exact foldl_min_le t h x hx

lemma le_maxList {xs : List Int} {x : Int} (hx : x ∈ xs) : x ≤ maxList xs := by
  cases xs with
  | nil => cases hx
  | cons h t => exact le_foldl_max t h x hx

lemma union_mesh_contains (ms : List Monitor) :
    meshContains (mkMonitorMesh ms
      (maxList (ms.map (fun m => m.right)) - minList (ms.map (fun m => m.x)))
      (maxList (ms.map (fun m => m.bottom)) - minList (ms.map (fun m => m.y)))
      (minList (ms.map (fun m => m.x))) (minList (ms.map (fun m => m.y)))) := by
  intro m hm
  have hx : minList (ms.map (fun m => m.x)) ≤ m.x :=
    minList_le (List.mem_map_of_mem _ hm)
  have hy : minList (ms.map (fun m => m.y)) ≤ m.y :=
    minList_le (List.mem_map_of_mem _ hm)
  have hr : m.right ≤ maxList (ms.map (fun m => m.right)) :=
    le_maxList (List.mem_map_of_mem _ hm)
  have hb : m.bottom ≤ maxList (ms.map (fun m => m.bottom)) :=
    le_maxList (List.mem_map_of_mem _ hm)
  have hr2 : m.x + m.width ≤ maxList (ms.map (fun m => m.right)) := by
    simpa [Monitor.right] using hr
  have hb2 : m.y + m.height ≤ maxList (ms.map (fun m => m.bottom)) := by
    simpa [Monitor.bottom] using hb
  refine ⟨hx, hy, ?_, ?_⟩
  · simp only [mkMonitorMesh]
    omega
  · simp only [mkMonitorMesh]
    omega

/-- C8 (amended): every mesh constructed by monitor detection — the union
over a non-empty enumeration, or the single-monitor fallback — satisfies
the containment invariant `meshContains`, for both detection variants
(`gaze-ml-improved.py` and `gaze-tracker.py`). -/
theorem detect_monitor_mesh_contains (enumerated : List Monitor)
    (screenW screenH : Int) :
    meshContains (detect_monitor_mesh enumerated) ∧
    meshContains (detect_monitor_mesh_v2 enumerated screenW screenH) := by
  constructor
  · unfold detect_monitor_mesh
    split
    · exact union_mesh_contains enumerated
    · intro m hm
      simp only [mkMonitorMesh, List.mem_singleton] at hm ⊢
      subst hm
      refine ⟨le_refl _, le_refl _, by norm_num, by norm_num⟩
  · unfold detect_monitor_mesh_v2
    split
    · exact union_mesh_contains _
    · exact union_mesh_contains _

/-- C8 counterexample: the screen-dimension override of `main`
(`gaze-ml-improved.py`) breaks the containment invariant on a detected
two-monitor mesh spanning 3840x1080 when the caller overrides the virtual
dimensions to 1920x1080. -/
theorem override_breaks_containment :
    meshContains (detect_monitor_mesh
      [⟨0, 0, 1920, 1080, true, "A"⟩, ⟨1920, 0, 1920, 1080, false, "B"⟩]) ∧
    ¬ meshContains (override_screen_dims (detect_monitor_mesh
      [⟨0, 0, 1920, 1080, true, "A"⟩, ⟨1920, 0, 1920, 1080, false, "B"⟩])
      1920 1080) := by
  constructor
  · decide
  · decide

-- Round-trip error of `int()` truncation.

lemma pyInt_close (q : Rat) : |(pyInt q : Rat) - q| < 1 := by
  unfold pyInt
  split
  · rw [abs_lt]
    constructor
    · have h1 : (⌊q⌋ : Rat) > q - 1 := by
        have := Int.sub_one_lt_floor q
        linarith
      linarith
    · have h2 : (⌊q⌋ : Rat) ≤ q := Int.floor_le q
      linarith
  · rw [abs_lt]
    constructor
    · have h2 : q ≤ (⌈q⌉ : Rat) := Int.le_ceil q
      linarith
    · have h1 : (⌈q⌉ : Rat) < q + 1 := Int.ceil_lt_add_one q
      linarith

/-- C2 (amended): for a mesh with positive virtual dimensions and
`nx, ny` in `[0,1]`, the round trip
`normalize_coordinates (denormalize_coordinates nx ny)` returns each axis
within `1 / virtual_dim` of the original value (the error of the `int()`
truncation inside `denormalize_coordinates`), not within floating-point
tolerance. -/
theorem normalize_denormalize_roundtrip (mesh : MonitorMesh) (nx ny : Rat)
    (hw : 0 < mesh.virtual_width) (hh : 0 < mesh.virtual_height)
    (hnx0 : 0 ≤ nx) (hnx1 : nx ≤ 1) (hny0 : 0 ≤ ny) (hny1 : ny ≤ 1) :
    |(normalize_coordinates mesh ((denormalize_coordinates mesh nx ny).1 : Rat)
        ((denormalize_coordinates mesh nx ny).2 : Rat)).1 - nx| <
      1 / (mesh.virtual_width : Rat) ∧
    |(normalize_coordinates mesh ((denormalize_coordinates mesh nx ny).1 : Rat)
        ((denormalize_coordinates mesh nx ny).2 : Rat)).2 - ny| <
      1 / (mesh.virtual_height : Rat) := by
  have hwq : (0 : Rat) < (mesh.virtual_width : Rat) := by exact_mod_cast hw
  have hhq : (0 : Rat) < (mesh.virtual_height : Rat) := by exact_mod_cast hh
  constructor
  · simp only [normalize_coordinates, denormalize_coordinates, if_pos hw]
    set z := (mesh.virtual_left : Rat) + nx * (mesh.virtual_width : Rat) with hz
    have hkey : ((pyInt z : Rat) - (mesh.virtual_left : Rat)) /
        (mesh.virtual_width : Rat) - nx = ((pyInt z : Rat) - z) / (mesh.virtual_width : Rat) := by
      field_simp
      ring
    rw [hkey, abs_div, abs_of_pos hwq]
    exact (div_lt_div_iff_of_pos_right hwq).mpr (pyInt_close z)
  · simp only [normalize_coordinates, denormalize_coordinates, if_pos hh]
    set z := (mesh.virtual_top : Rat) + ny * (mesh.virtual_height : Rat) with hz
    have hkey : ((pyInt z : Rat) - (mesh.virtual_top : Rat)) /
        (mesh.virtual_height : Rat) - ny = ((pyInt z : Rat) - z) / (mesh.virtual_height : Rat) := by
      field_simp
      ring
    rw [hkey, abs_div, abs_of_pos hhq]
    exact (div_lt_div_iff_of_pos_right hhq).mpr (pyInt_close z)

/-- C2 counterexample: on a mesh with a 3x3 virtual desktop at the origin,
the round trip at `(1/2, 1/2)` returns `(1/3, 1/3)` — an error of `1/6`,
far beyond floating-point tolerance (it exceeds `1e-9`). -/
theorem roundtrip_not_exact :
    normalize_coordinates (mkMonitorMesh [⟨0, 0, 3, 3, true, "M"⟩] 3 3 0 0)
      ((denormalize_coordinates (mkMonitorMesh [⟨0, 0, 3, 3, true, "M"⟩] 3 3 0 0)
          (1/2) (1/2)).1 : Rat)
      ((denormalize_coordinates (mkMonitorMesh [⟨0, 0, 3, 3, true, "M"⟩] 3 3 0 0)
          (1/2) (1/2)).2 : Rat) = (1/3, 1/3) ∧
    ¬ |(1/3 : Rat) - 1/2| ≤ 1/1000000000 := by
  constructor
  · norm_num [normalize_coordinates, denormalize_coordinates, mkMonitorMesh, pyInt,
      Prod.ext_iff]
  · rw [abs_of_neg (by norm_num)]
    norm_num

/-- C2 witness: the amended bound applied to the same 3x3 mesh at
`(1/2, 1/2)` — the error on each axis is strictly below `1/3`. -/
theorem roundtrip_bound_witness :
    (0 : Int) < (mkMonitorMesh [⟨0, 0, 3, 3, true, "M"⟩] 3 3 0 0).virtual_width ∧
    |(normalize_coordinates (mkMonitorMesh [⟨0, 0, 3, 3, true, "M"⟩] 3 3 0 0)
        ((denormalize_coordinates (mkMonitorMesh [⟨0, 0, 3, 3, true, "M"⟩] 3 3 0 0)
            (1/2) (1/2)).1 : Rat)
        ((denormalize_coordinates (mkMonitorMesh [⟨0, 0, 3, 3, true, "M"⟩] 3 3 0 0)
            (1/2) (1/2)).2 : Rat)).1 - 1/2| <
      1 / ((mkMonitorMesh [⟨0, 0, 3, 3, true, "M"⟩] 3 3 0 0).virtual_width : Rat) :=
  ⟨by norm_num [mkMonitorMesh],
   (normalize_denormalize_roundtrip (mkMonitorMesh [⟨0, 0, 3, 3, true, "M"⟩] 3 3 0 0)
      (1/2) (1/2) (by norm_num [mkMonitorMesh]) (by norm_num [mkMonitorMesh]) (by norm_num) (by norm_num)
      (by norm_num) (by norm_num)).1⟩

/-- C10: `normalize_coordinates` is total on degenerate geometry — when the
virtual width (resp. height) is not positive the corresponding axis of the
result is `0.0`, with no division performed. -/
theorem normalize_degenerate_total (mesh : MonitorMesh) (x y : Rat) :
    (mesh.virtual_width ≤ 0 → (normalize_coordinates mesh x y).1 = 0) ∧
    (mesh.virtual_height ≤ 0 → (normalize_coordinates mesh x y).2 = 0) := by
  constructor
  · intro hw
    simp [normalize_coordinates, not_lt.mpr hw]
  · intro hh
    simp [normalize_coordinates, not_lt.mpr hh]

/-- C10 witness: on a mesh whose virtual dimensions are zero, normalizing
the point `(5, 7)` returns `0.0` on the x axis. -/
theorem normalize_degenerate_witness :
    (mkMonitorMesh [] 0 0 0 0).virtual_width ≤ 0 ∧
    (normalize_coordinates (mkMonitorMesh [] 0 0 0 0) 5 7).1 = 0 :=
  ⟨by norm_num [mkMonitorMesh],
   (normalize_degenerate_total (mkMonitorMesh [] 0 0 0 0) 5 7).1 (by norm_num [mkMonitorMesh])⟩

/-!
Temporal smoothing (`EyeTrackingML.smooth_gaze` of `eye-tracking-ml.py`,
`TauriGazeTracker.smooth_gaze` of `gaze-ml-improved.py`, and the
moving-average fragment of `GazeTrackerApplication.get_gaze_data` of
`gaze-tracker-application.py`).  The exponential weights use `Real.exp`,
so this part of the embedding lives in `Real`.
-/

/-- Bounded-deque append (`collections.deque(maxlen=N).append`): when the
deque is full the leftmost (oldest) element is dropped. -/
def dequePush {α : Type} (maxlen : Nat) (hist : List α) (new : α) : List α :=
  if hist.length < maxlen then hist ++ [new] else hist.tail ++ [new]

/-- One raw weight of `np.exp(np.linspace(-1, 0, k))`: the i-th linspace
point is `-1 + i/(k-1)`. -/
noncomputable def rawWeight (k i : Nat) : Real :=
  Real.exp (-1 + (i : Real) / ((k : Real) - 1))

/-- The sum the code divides by (`weights.sum()`). -/
noncomputable def totalWeight (k : Nat) : Real :=
  ((List.range k).map (rawWeight k)).sum

/-- One normalized weight (`weights /= weights.sum()`). -/
noncomputable def normWeight (k i : Nat) : Real := rawWeight k i / totalWeight k

/-- The normalized weight vector used by `smooth_gaze` for a history of
length `k`, oldest entry first. -/
noncomputable def weightsList (k : Nat) : List Real :=
  (List.range k).map (normWeight k)

/-- Gaze point of `gaze-ml-improved.py`. -/
structure GazePoint where
  x : Real
  y : Real
  confidence : Real
  timestamp : Real

/-- Gaze point of `eye-tracking-ml.py` (adds the raw pupil position). -/
structure GazePointML where
  x : Real
  y : Real
  confidence : Real
  timestamp : Real
  raw_pupil_x : Real
  raw_pupil_y : Real

/-- `TauriGazeTracker.smooth_gaze`: append to the bounded history
(capacity 8 at the call site), return the input unchanged when fewer than
two entries, else the exponentially-weighted average of x and y with the
newest point's confidence and timestamp.  Returns the smoothed point and
the updated history. -/
noncomputable def smooth_gaze (maxlen : Nat) (hist : List GazePoint)
    (new : GazePoint) : GazePoint × List GazePoint :=
  let h := dequePush maxlen hist new
  if h.length < 2 then (new, h)
  else
    let ws := weightsList h.length
    let sx := (List.zipWith (fun w gp => w * gp.x) ws h).sum
    let sy := (List.zipWith (fun w gp => w * gp.y) ws h).sum
    (⟨sx, sy, new.confidence, new.timestamp⟩, h)

/-- `EyeTrackingML.smooth_gaze`: identical smoothing, capacity
`smoothing_window` (default 5), carrying the raw pupil fields of the
newest point through. -/
noncomputable def smooth_gaze_ml (maxlen : Nat) (hist : List GazePointML)
    (new : GazePointML) : GazePointML × List GazePointML :=
  let h := dequePush maxlen hist new
  if h.length < 2 then (new, h)
  else
    let ws := weightsList h.length
    let sx := (List.zipWith (fun w gp => w * gp.x) ws h).sum
    let sy := (List.zipWith (fun w gp => w * gp.y) ws h).sum
    (⟨sx, sy, new.confidence, new.timestamp, new.raw_pupil_x, new.raw_pupil_y⟩, h)

/-- The moving-average fragment of `GazeTrackerApplication.get_gaze_data`
(lines 466-475): the new `(x, y, confidence)` triple is appended to the
5-deep history and, once at least two entries exist, x, y AND confidence
are all replaced by their plain averages over the history. -/
noncomputable def get_gaze_data_smooth (hist : List (Real × Real × Real))
    (g : Real × Real × Real) : (Real × Real × Real) × List (Real × Real × Real) :=
  let h := dequePush 5 hist g
  if 2 ≤ h.length then
    (((h.map (fun p => p.1)).sum / (h.length : Real),
      (h.map (fun p => p.2.1)).sum / (h.length : Real),
      (h.map (fun p => p.2.2)).sum / (h.length : Real)), h)
  else (g, h)

lemma sum_map_div (l : List Nat) (f : Nat → Real) (c : Real) :
    (l.map (fun x => f x / c)).sum = (l.map f).sum / c := by
  induction l with
  | nil => simp
  | cons a t ih => simp [ih, add_div]

lemma totalWeight_pos {k : Nat} (hk : 1 ≤ k) : 0 < totalWeight k := by
  unfold totalWeight
  apply List.sum_pos
  · intro w hw
    simp only [List.mem_map] at hw
    obtain ⟨i, _, rfl⟩ := hw
    exact Real.exp_pos _
  · simp only [ne_eq, List.map_eq_nil_iff, List.range_eq_nil]
    omega

lemma weightsList_sum {k : Nat} (hk : 1 ≤ k) : (weightsList k).sum = 1 := by
  unfold weightsList normWeight
  rw [sum_map_div]
  exact div_self (ne_of_gt (totalWeight_pos hk))

lemma weightsList_length (k : Nat) : (weightsList k).length = k := by
  simp [weightsList]

/-- C5: for every history length `k` from 2 up to the smoother's capacity
(8 in `gaze-ml-improved.py`), the normalized exponential weight vector
used by `smooth_gaze` sums to `1.0` within `1e-9` (it sums to exactly 1). -/
theorem weights_sum_within_tolerance (k : Nat) (hk2 : 2 ≤ k) (hk8 : k ≤ 8) :
    |(weightsList k).sum - 1| ≤ 1 / 1000000000 := by
  rw [weightsList_sum (by omega)]
  norm_num

/-- C5 witness: the weight vector for a history of length 5 sums to 1
within the tolerance. -/
theorem weights_sum_witness :
    2 ≤ 5 ∧ 5 ≤ 8 ∧ |(weightsList 5).sum - 1| ≤ 1 / 1000000000 :=
  ⟨by norm_num, by norm_num, weights_sum_within_tolerance 5 (by norm_num) (by norm_num)⟩

lemma zipWith_const_sum {α : Type} (f : α → Real) (p : α) :
    ∀ (ws : List Real) (l : List α), (∀ q ∈ l, q = p) → ws.length = l.length →
      (List.zipWith (fun w a => w * f a) ws l).sum = ws.sum * f p := by
  intro ws
  induction ws with
  | nil =>
      intro l _ hlen
      simp at hlen
      simp [List.length_eq_zero.mp hlen.symm]
  | cons w ws ih =>
      intro l hall hlen
      cases l with
      | nil => simp at hlen
      | cons a t =>
          have ha : a = p := hall a (List.mem_cons_self _ _)
          have ht : ∀ q ∈ t, q = p := fun q hq => hall q (List.mem_cons_of_mem _ hq)
          simp only [List.zipWith_cons_cons, List.sum_cons, ha,
            ih t ht (by simpa using hlen)]
          ring

lemma dequePush_const {α : Type} (maxlen : Nat) (hist : List α) (p : α)
    (hall : ∀ q ∈ hist, q = p) : ∀ q ∈ dequePush maxlen hist p, q = p := by
  intro q hq
  unfold dequePush at hq
  split at hq
  · rcases List.mem_append.mp hq with h1 | h1
    · exact hall q h1
    · simpa using h1
  · rcases List.mem_append.mp hq with h1 | h1
    · exact hall q (List.mem_of_mem_tail h1)
    · simpa using h1

lemma smooth_core {α : Type} (f : α → Real) (p : α) (h : List α)
    (hall : ∀ r ∈ h, r = p) (hk : 1 ≤ h.length) :
    (List.zipWith (fun w a => w * f a) (weightsList h.length) h).sum = f p := by
  rw [zipWith_const_sum f p _ _ hall (weightsList_length _), weightsList_sum hk, one_mul]

/-- C6: if the smoothing history holds only copies of one point `p`, then
smoothing `p` again returns a point with the same x and y, in both
`TauriGazeTracker.smooth_gaze` and `EyeTrackingML.smooth_gaze`. -/
theorem smooth_constant_history (maxlenT maxlenM : Nat)
    (histT : List GazePoint) (p : GazePoint)
    (histM : List GazePointML) (q : GazePointML)
    (hT : ∀ r ∈ histT, r = p) (hM : ∀ r ∈ histM, r = q) :
    ((smooth_gaze maxlenT histT p).1.x = p.x ∧
     (smooth_gaze maxlenT histT p).1.y = p.y) ∧
    ((smooth_gaze_ml maxlenM histM q).1.x = q.x ∧
     (smooth_gaze_ml maxlenM histM q).1.y = q.y) := by
  constructor
  · have hall := dequePush_const maxlenT histT p hT
    by_cases hlen : (dequePush maxlenT histT p).length < 2
    · constructor
      · simp only [smooth_gaze]
        rw [if_pos hlen]
      · simp only [smooth_gaze]
        rw [if_pos hlen]
    · have hk : 1 ≤ (dequePush maxlenT histT p).length := by omega
      constructor
      · simp only [smooth_gaze]
        rw [if_neg hlen]
        exact smooth_core (fun gp => gp.x) p _ hall hk
      · simp only [smooth_gaze]
        rw [if_neg hlen]
        exact smooth_core (fun gp => gp.y) p _ hall hk
  · have hall := dequePush_const maxlenM histM q hM
    by_cases hlen : (dequePush maxlenM histM q).length < 2
    · constructor
      · simp only [smooth_gaze_ml]
        rw [if_pos hlen]
      · simp only [smooth_gaze_ml]
        rw [if_pos hlen]
    · have hk : 1 ≤ (dequePush maxlenM histM q).length := by omega
      constructor
      · simp only [smooth_gaze_ml]
        rw [if_neg hlen]
        exact smooth_core (fun gp => gp.x) q _ hall hk
      · simp only [smooth_gaze_ml]
        rw [if_neg hlen]
        exact smooth_core (fun gp => gp.y) q _ hall hk

/-- C6 witness: smoothing the point `(1, 2)` over a history of two copies
of itself returns the same x and y in both smoothers. -/
theorem smooth_constant_history_witness :
    (∀ r ∈ [(⟨1, 2, 1, 0⟩ : GazePoint), ⟨1, 2, 1, 0⟩], r = (⟨1, 2, 1, 0⟩ : GazePoint)) ∧
    ((smooth_gaze 8 [⟨1, 2, 1, 0⟩, ⟨1, 2, 1, 0⟩] ⟨1, 2, 1, 0⟩).1.x =
        (⟨1, 2, 1, 0⟩ : GazePoint).x ∧
      (smooth_gaze 8 [⟨1, 2, 1, 0⟩, ⟨1, 2, 1, 0⟩] ⟨1, 2, 1, 0⟩).1.y =
        (⟨1, 2, 1, 0⟩ : GazePoint).y) ∧
    ((smooth_gaze_ml 5 [⟨1, 2, 1, 0, 1, 1⟩] ⟨1, 2, 1, 0, 1, 1⟩).1.x =
        (⟨1, 2, 1, 0, 1, 1⟩ : GazePointML).x ∧
      (smooth_gaze_ml 5 [⟨1, 2, 1, 0, 1, 1⟩] ⟨1, 2, 1, 0, 1, 1⟩).1.y =
        (⟨1, 2, 1, 0, 1, 1⟩ : GazePointML).y) := by
  have h := smooth_constant_history 8 5
    [⟨1, 2, 1, 0⟩, ⟨1, 2, 1, 0⟩] ⟨1, 2, 1, 0⟩
    [⟨1, 2, 1, 0, 1, 1⟩] ⟨1, 2, 1, 0, 1, 1⟩
    (by intro r hr; simp at hr; rcases hr with rfl | rfl <;> rfl)
    (by intro r hr; simp at hr; exact hr)
  refine ⟨?_, h.1, h.2⟩
  intro r hr
  simp at hr
  rcases hr with rfl | rfl <;> rfl

/-- C3 (amended): in `TauriGazeTracker.smooth_gaze` and
`EyeTrackingML.smooth_gaze`, the confidence and timestamp of the smoothed
result always equal those of the newest raw point; only x and y are
averaged.  (The moving-average fragment of
`GazeTrackerApplication.get_gaze_data` instead averages confidence — see
the counterexample.) -/
theorem smooth_keeps_newest_conf_ts (maxlenT maxlenM : Nat)
    (histT : List GazePoint) (newT : GazePoint)
    (histM : List GazePointML) (newM : GazePointML) :
    ((smooth_gaze maxlenT histT newT).1.confidence = newT.confidence ∧
     (smooth_gaze maxlenT histT newT).1.timestamp = newT.timestamp) ∧
    ((smooth_gaze_ml maxlenM histM newM).1.confidence = newM.confidence ∧
     (smooth_gaze_ml maxlenM histM newM).1.timestamp = newM.timestamp) := by
  refine ⟨⟨?_, ?_⟩, ?_, ?_⟩ <;>
    · simp only [smooth_gaze, smooth_gaze_ml]
      split <;> rfl

/-- C3 counterexample: the smoothing fragment of
`GazeTrackerApplication.get_gaze_data` averages confidence over the
history — with history `[(0,0,0)]` and newest point `(0,0,1)` the emitted
confidence is `1/2`, not the newest point's `1`. -/
theorem get_gaze_data_averages_confidence :
    (get_gaze_data_smooth [((0 : Real), (0 : Real), (0 : Real))] (0, 0, 1)).1.2.2 = 1/2 ∧
    ((0 : Real), (0 : Real), (1 : Real)).2.2 = 1 ∧ (1/2 : Real) ≠ 1 := by
  refine ⟨?_, rfl, by norm_num⟩
  norm_num [get_gaze_data_smooth, dequePush]

/-!
Bounded audio queue of
`sandbox/real-time-optimized-whisper-transcriber.py`: the capture callback
(`audio_callback`) enqueues with `put_nowait`; on `queue.Full` it drops the
oldest item with `get_nowait` and retries the put (the inner
`queue.Empty` branch leaves the queue unchanged).  The queue is created
with `maxsize=100`.
-/

/-- State transition of `RealtimeWhisperTranscriber.audio_callback` on the
bounded queue, oldest element first. -/
def audio_callback {α : Type} (maxsize : Nat) (q : List α) (new : α) : List α :=
  if q.length < maxsize then q ++ [new]
  else if q.isEmpty then q
  else q.tail ++ [new]

/-- C7: enqueuing into the bounded audio queue never exceeds the capacity,
always retains the newest item, leaves a non-full queue simply appended,
and drops exactly the oldest buffered item when the queue is full. -/
theorem audio_callback_drop_oldest {α : Type} (maxsize : Nat) (q : List α)
    (new : α) (hcap : q.length ≤ maxsize) (hpos : 0 < maxsize) :
    (audio_callback maxsize q new).length ≤ maxsize ∧
    (audio_callback maxsize q new).getLast? = some new ∧
    (q.length < maxsize → audio_callback maxsize q new = q ++ [new]) ∧
    (q.length = maxsize → audio_callback maxsize q new = q.tail ++ [new]) := by
  unfold audio_callback
  by_cases hlt : q.length < maxsize
  · rw [if_pos hlt]
    refine ⟨by simp; omega, ?_, fun _ => rfl, fun heq => by omega⟩
    rw [List.getLast?_append]
    rfl
  · have hfull : q.length = maxsize := by omega
    have hne : ¬ q.isEmpty := by
      simp only [List.isEmpty_iff]
      intro h
      subst h
      simp at hfull
      omega
    rw [if_neg hlt, if_neg hne]
    refine ⟨?_, ?_, fun hc => absurd hc hlt, fun _ => rfl⟩
    · have : q.tail.length = q.length - 1 := List.length_tail q
      simp only [List.length_append, List.length_singleton, this]
      omega
    · rw [List.getLast?_append]
      rfl

/-- C7 witness: a full three-element queue of capacity 3 drops its oldest
element and keeps the newest. -/
theorem audio_callback_witness :
    ([10, 20, 30] : List Int).length ≤ 3 ∧
    (audio_callback 3 ([10, 20, 30] : List Int) 40).length ≤ 3 ∧
    (audio_callback 3 ([10, 20, 30] : List Int) 40).getLast? = some 40 ∧
    (([10, 20, 30] : List Int).length = 3 →
      audio_callback 3 ([10, 20, 30] : List Int) 40 = [20, 30, 40]) := by
  have h := audio_callback_drop_oldest 3 ([10, 20, 30] : List Int) 40
    (by decide) (by decide)
  exact ⟨by decide, h.1, h.2.1, fun he => (h.2.2.2 he).trans (by decide)⟩

/-!
Calibration fitting.  `GazeTrackerApplication.finish_calibration`
(`gaze-tracker-application.py`) refuses to fit with fewer than 4 collected
points; `ImprovedEyeTracker.calculate_enhanced_calibration`
(`multi-screen-eye-tracking.py`) refuses with fewer than 10.  The
third-party least-squares / polynomial-fit routines (`np.linalg.lstsq`,
`np.polyfit`) are external collaborators, passed in as functions whose
`none` result models the exception path of the Python `try` blocks.
-/

/-- A collected calibration point of `gaze-tracker-application.py`
(`CalibrationPoint` dataclass). -/
structure CalibrationPoint where
  screen_x : Real
  screen_y : Real
  gaze_x : Real
  gaze_y : Real
  confidence : Real
  timestamp : Int

/-- The calibration-relevant state of `GazeTrackerApplication`: the monitor
mesh, the collected points, the 3x3 homogeneous transform (initially the
identity) and the calibrated flag. -/
structure AppState where
  monitor_mesh : MonitorMesh
  calibration_points : List CalibrationPoint
  calibration_transform : Fin 3 → Fin 3 → Real
  is_calibrated : Bool

/-- `GazeTrackerApplication.finish_calibration`: with fewer than 4 points
it reports failure and leaves the state untouched; otherwise it normalizes
screen and gaze coordinates by the virtual-desktop dimensions, solves the
least-squares system through the external `lstsq` routine (the solution is
already transposed, as in `np.linalg.lstsq(...)[0].T`), writes the top two
rows of the transform and sets the calibrated flag.  An exception from the
solver (`none`) reports failure and leaves the state untouched. -/
noncomputable def finish_calibration
    (lstsq : List (Real × Real × Real) → List (Real × Real) →
      Option (Fin 2 → Fin 3 → Real))
    (st : AppState) : Bool × AppState :=
  if st.calibration_points.length < 4 then (false, st)
  else
    let vw := (st.monitor_mesh.virtual_width : Real)
    let vh := (st.monitor_mesh.virtual_height : Real)
    let screen := st.calibration_points.map
      (fun p => (p.screen_x / vw, p.screen_y / vh))
    let gazeH := st.calibration_points.map
      (fun p => (p.gaze_x / vw, p.gaze_y / vh, (1 : Real)))
    match lstsq gazeH screen with
    | some sol =>
        (true,
         { st with
            calibration_transform := fun i j =>
              if h : (i : Nat) < 2 then sol ⟨i, h⟩ j
              else st.calibration_transform i j,
            is_calibrated := true })
    | none => (false, st)

/-- The virtual-desktop dictionary of `multi-screen-eye-tracking.py`. -/
structure VirtualDesktop where
  width : Int
  height : Int
  min_x : Int
  min_y : Int
  max_x : Int
  max_y : Int

/-- One sample of `ImprovedEyeTracker.calibration_points`: the virtual
screen point shown and the averaged raw gaze recorded for it. -/
structure MSCalPoint where
  virtual : Int × Int
  gaze : Real × Real

/-- The calibration-data dictionary of `multi-screen-eye-tracking.py`:
either a polynomial fit or the linear fallback, with the geometry it was
fit against and its in-sample accuracy. -/
inductive CalData where
  | poly (polynomial_x polynomial_y : List Real)
      (virtual_desktop : VirtualDesktop) (accuracy : Real)
  | linear (x_scale y_scale x_offset y_offset : Real)
      (virtual_desktop : VirtualDesktop) (accuracy : Real)

/-- The calibration-relevant state of `ImprovedEyeTracker`. -/
structure MSState where
  virtual_desktop : VirtualDesktop
  calibration_points : List MSCalPoint
  calibration_data : Option CalData
  is_calibrated : Bool

/-- Python `int(x)` truncation toward zero on a real. -/
noncomputable def pyIntR (x : Real) : Int := if 0 ≤ x then ⌊x⌋ else ⌈x⌉

/-- `np.polyval`: Horner evaluation, highest coefficient first. -/
def polyval (p : List Real) (x : Real) : Real :=
  p.foldl (fun acc c => acc * x + c) 0

/-- `ImprovedEyeTracker.simple_virtual_mapping`: scale the gaze vector
around the virtual-desktop centre and clamp to the bounds. -/
noncomputable def simple_virtual_mapping (vd : VirtualDesktop)
    (gaze_x gaze_y : Real) : Int × Int :=
  let center_x := vd.min_x + vd.width.fdiv 2
  let center_y := vd.min_y + vd.height.fdiv 2
  let base_scale := min vd.width vd.height
  let scale_x := (base_scale : Real) * 0.8
  let scale_y := (base_scale : Real) * 0.6
  let vx := (center_x : Real) + gaze_x * scale_x
  let vy := (center_y : Real) + gaze_y * scale_y
  let vx2 := max (vd.min_x : Real) (min ((vd.max_x - 1 : Int) : Real) vx)
  let vy2 := max (vd.min_y : Real) (min ((vd.max_y - 1 : Int) : Real) vy)
  (pyIntR vx2, pyIntR vy2)

/-- `ImprovedEyeTracker.calibrated_virtual_mapping`: polynomial or linear
correction from the stored calibration data, clamped to the bounds; falls
back to the simple mapping when no data is stored. -/
noncomputable def calibrated_virtual_mapping (vd : VirtualDesktop)
    (data : Option CalData) (gaze_x gaze_y : Real) : Int × Int :=
  match data with
  | none => simple_virtual_mapping vd gaze_x gaze_y
  | some (CalData.poly px py _ _) =>
      let vx := polyval px gaze_x
      let vy := polyval py gaze_y
      let vx2 := max (vd.min_x : Real) (min ((vd.max_x - 1 : Int) : Real) vx)
      let vy2 := max (vd.min_y : Real) (min ((vd.max_y - 1 : Int) : Real) vy)
      (pyIntR vx2, pyIntR vy2)
  | some (CalData.linear xs ys xo yo _ _) =>
      let vx := gaze_x * xs + xo
      let vy := gaze_y * ys + yo
      let vx2 := max (vd.min_x : Real) (min ((vd.max_x - 1 : Int) : Real) vx)
      let vy2 := max (vd.min_y : Real) (min ((vd.max_y - 1 : Int) : Real) vy)
      (pyIntR vx2, pyIntR vy2)

/-- Whether the stored calibration dictionary holds a polynomial fit
(the `'polynomial_x' in self.calibration_data` test). -/
def isPolyData (data : Option CalData) : Bool :=
  match data with
  | some (CalData.poly _ _ _ _) => true
  | _ => false

/-- `ImprovedEyeTracker.calculate_calibration_accuracy`: the mean
Euclidean in-sample residual over the collected points, using the
currently stored calibration data (polynomial mapping when present, else
the simple mapping). -/
noncomputable def calculate_calibration_accuracy (st : MSState) : Real :=
  if st.calibration_points.isEmpty then 0
  else
    ((st.calibration_points.map (fun p =>
        let pred :=
          if isPolyData st.calibration_data then
            calibrated_virtual_mapping st.virtual_desktop st.calibration_data
              p.gaze.1 p.gaze.2
          else simple_virtual_mapping st.virtual_desktop p.gaze.1 p.gaze.2
        Real.sqrt (((pred.1 - p.virtual.1 : Int) : Real) ^ 2 +
          ((pred.2 - p.virtual.2 : Int) : Real) ^ 2))).sum) /
      (st.calibration_points.length : Real)

/-- `ImprovedEyeTracker.calculate_linear_calibration`: degree-1 fits per
axis through the external `polyfit`; a solver exception (`none`, or a
result that does not unpack into slope and intercept) reports failure and
leaves the state untouched. -/
noncomputable def calculate_linear_calibration
    (polyfit : List Real → List Real → Nat → Option (List Real))
    (st : MSState) : Bool × MSState :=
  let gaze_xs := st.calibration_points.map (fun p => p.gaze.1)
  let gaze_ys := st.calibration_points.map (fun p => p.gaze.2)
  let virtual_xs := st.calibration_points.map (fun p => ((p.virtual.1 : Int) : Real))
  let virtual_ys := st.calibration_points.map (fun p => ((p.virtual.2 : Int) : Real))
  match polyfit gaze_xs virtual_xs 1, polyfit gaze_ys virtual_ys 1 with
  | some [x_scale, x_offset], some [y_scale, y_offset] =>
      let acc := calculate_calibration_accuracy st
      (true,
       { st with
          calibration_data := some (CalData.linear x_scale y_scale x_offset
            y_offset st.virtual_desktop acc) })
  | _, _ => (false, st)

/-- `ImprovedEyeTracker.calculate_enhanced_calibration`: with fewer than 10
points it reports failure and leaves the state untouched; otherwise it
fits per-axis polynomials of degree `min 2 (n-1)` through the external
`polyfit`, storing the fit together with the geometry and the in-sample
accuracy (computed against the previously stored data, as the Python dict
literal does); a solver exception falls back to the linear calibration. -/
noncomputable def calculate_enhanced_calibration
    (polyfit : List Real → List Real → Nat → Option (List Real))
    (st : MSState) : Bool × MSState :=
  if st.calibration_points.length < 10 then (false, st)
  else
    let gaze_xs := st.calibration_points.map (fun p => p.gaze.1)
    let gaze_ys := st.calibration_points.map (fun p => p.gaze.2)
    let virtual_xs := st.calibration_points.map (fun p => ((p.virtual.1 : Int) : Real))
    let virtual_ys := st.calibration_points.map (fun p => ((p.virtual.2 : Int) : Real))
    let deg := min 2 (st.calibration_points.length - 1)
    match polyfit gaze_xs virtual_xs deg, polyfit gaze_ys virtual_ys deg with
    | some px, some py =>
        let acc := calculate_calibration_accuracy st
        (true,
         { st with
            calibration_data := some (CalData.poly px py st.virtual_desktop acc) })
    | _, _ => calculate_linear_calibration polyfit st

/-- C4: with fewer than the minimum number of calibration samples the fit
call returns `False` and the whole tracker state — including any
previously stored calibration transform/data and the calibrated flag — is
left unchanged, for both `finish_calibration` (minimum 4) and
`calculate_enhanced_calibration` (minimum 10), whatever the external
solver does. -/
theorem calibration_refused_below_minimum :
    (∀ (lstsq : List (Real × Real × Real) → List (Real × Real) →
        Option (Fin 2 → Fin 3 → Real)) (st : AppState),
      st.calibration_points.length < 4 →
      finish_calibration lstsq st = (false, st)) ∧
    (∀ (polyfit : List Real → List Real → Nat → Option (List Real))
        (st : MSState),
      st.calibration_points.length < 10 →
      calculate_enhanced_calibration polyfit st = (false, st)) := by
  constructor
  · intro lstsq st h
    unfold finish_calibration
    rw [if_pos h]
  · intro polyfit st h
    unfold calculate_enhanced_calibration
    rw [if_pos h]

/-- C4 witness: with three collected points (and an empty multi-screen
sample list) both fitters refuse and return the state unchanged. -/
theorem calibration_refused_witness :
    ([(⟨0, 0, 0, 0, 1, 0⟩ : CalibrationPoint), ⟨1, 0, 0, 0, 1, 0⟩,
        ⟨0, 1, 0, 0, 1, 0⟩].length < 4) ∧
    finish_calibration (fun _ _ => none)
      ⟨detect_monitor_mesh [],
       [⟨0, 0, 0, 0, 1, 0⟩, ⟨1, 0, 0, 0, 1, 0⟩, ⟨0, 1, 0, 0, 1, 0⟩],
       fun _ _ => 0, false⟩ =
      (false,
       ⟨detect_monitor_mesh [],
        [⟨0, 0, 0, 0, 1, 0⟩, ⟨1, 0, 0, 0, 1, 0⟩, ⟨0, 1, 0, 0, 1, 0⟩],
        fun _ _ => 0, false⟩) ∧
    calculate_enhanced_calibration (fun _ _ _ => none)
      ⟨⟨1920, 1080, 0, 0, 1920, 1080⟩, [], none, false⟩ =
      (false, ⟨⟨1920, 1080, 0, 0, 1920, 1080⟩, [], none, false⟩) := by
  refine ⟨by norm_num, ?_, ?_⟩
  · exact calibration_refused_below_minimum.1 (fun _ _ => none) _ (by norm_num)
  · exact calibration_refused_below_minimum.2 (fun _ _ _ => none) _ (by norm_num)

/-!
Feature extraction (`EyeTrackingML.extract_eye_features` of
`eye-tracking-ml.py`).  Landmarks are normalized 2D points; the MediaPipe
index tables are module constants of the source.  Euclidean norms use
`Real.sqrt` and the head-tilt proxy uses `np.arctan2`, embedded below.
-/

/-- Left-eye contour indices (`self.LEFT_EYE`). -/
def LEFT_EYE : List Nat :=
  [362, 382, 381, 380, 374, 373, 390, 249, 263, 466, 388, 387, 386, 385, 384, 398]

/-- Right-eye contour indices (`self.RIGHT_EYE`). -/
def RIGHT_EYE : List Nat :=
  [33, 7, 163, 144, 145, 153, 154, 155, 133, 173, 157, 158, 159, 160, 161, 246]

/-- Left-iris indices (`self.LEFT_IRIS`). -/
def LEFT_IRIS : List Nat := [474, 475, 476, 477, 473]

/-- Right-iris indices (`self.RIGHT_IRIS`). -/
def RIGHT_IRIS : List Nat := [469, 470, 471, 472, 468]

/-- Eye-corner / head-pose indices whose presence is checked before
normalization (`required_indices`). -/
def REQUIRED_INDICES : List Nat := [133, 33, 362, 263, 1, 168, 234, 454]

/-- The Python gather loop `[landmarks[i] for i in idxs if i < len(landmarks)]`. -/
def gather (idxs : List Nat) (l : List (Real × Real)) : List (Real × Real) :=
  (idxs.filter (fun i => decide (i < l.length))).map (fun i => l.getD i (0, 0))

/-- Arithmetic mean of a point list (`np.mean(..., axis=0)`). -/
noncomputable def meanPt (pts : List (Real × Real)) : Real × Real :=
  ((pts.map Prod.fst).sum / (pts.length : Real),
   (pts.map Prod.snd).sum / (pts.length : Real))

/-- Euclidean distance of two 2D points (`np.linalg.norm(a - b)`). -/
noncomputable def dist2 (a b : Real × Real) : Real :=
  Real.sqrt ((a.1 - b.1) ^ 2 + (a.2 - b.2) ^ 2)

/-- `np.arctan2(y, x)` with the standard quadrant handling. -/
noncomputable def arctan2 (y x : Real) : Real :=
  if 0 < x then Real.arctan (y / x)
  else if x < 0 ∧ 0 ≤ y then Real.arctan (y / x) + Real.pi
  else if x < 0 ∧ y < 0 then Real.arctan (y / x) - Real.pi
  else if x = 0 ∧ 0 < y then Real.pi / 2
  else if x = 0 ∧ y < 0 then -(Real.pi / 2)
  else 0

/-- Pupil-centre selection of `extract_eye_features`: iris-ring means when
at least three iris points are in range for each eye, else eye-contour
means, failing (`None`) when either contour has fewer than six points. -/
noncomputable def pupil_centers (l : List (Real × Real)) :
    Option ((Real × Real) × (Real × Real)) :=
  let leftIris := gather LEFT_IRIS l
  let rightIris := gather RIGHT_IRIS l
  if 3 ≤ leftIris.length ∧ 3 ≤ rightIris.length then
    some (meanPt leftIris, meanPt rightIris)
  else
    let leftEye := gather LEFT_EYE l
    let rightEye := gather RIGHT_EYE l
    if leftEye.length < 6 ∨ rightEye.length < 6 then none
    else some (meanPt leftEye, meanPt rightEye)

/-- The left eye width computed by `extract_eye_features`:
`np.linalg.norm(landmarks[33] - landmarks[133])`. -/
noncomputable def left_eye_width (l : List (Real × Real)) : Real :=
  dist2 (l.getD 33 (0, 0)) (l.getD 133 (0, 0))

/-- The right eye width computed by `extract_eye_features`:
`np.linalg.norm(landmarks[263] - landmarks[362])`. -/
noncomputable def right_eye_width (l : List (Real × Real)) : Real :=
  dist2 (l.getD 263 (0, 0)) (l.getD 362 (0, 0))

/-- `EyeTrackingML.extract_eye_features`: `None` on an empty or too-short
landmark list, on missing contour points, on a missing required index, or
on a non-positive eye width; otherwise the 14-element feature vector. -/
noncomputable def extract_eye_features (l : List (Real × Real)) :
    Option (List Real) :=
  if l.length = 0 then none
  else if l.length < 468 then none
  else
    match pupil_centers l with
    | none => none
    | some (left_pupil, right_pupil) =>
      if REQUIRED_INDICES.any (fun i => decide (l.length ≤ i)) then none
      else
        let left_corner_inner := l.getD 133 (0, 0)
        let right_corner_inner := l.getD 362 (0, 0)
        let lw := left_eye_width l
        let rw2 := right_eye_width l
        if lw ≤ 0 ∨ rw2 ≤ 0 then none
        else
          let left_pupil_norm :=
            ((left_pupil.1 - left_corner_inner.1) / lw,
             (left_pupil.2 - left_corner_inner.2) / lw)
          let right_pupil_norm :=
            ((right_pupil.1 - right_corner_inner.1) / rw2,
             (right_pupil.2 - right_corner_inner.2) / rw2)
          let nose_tip := l.getD 1 (0, 0)
          let nose_bridge := l.getD 168 (0, 0)
          let left_ear := l.getD 234 (0, 0)
          let right_ear := l.getD 454 (0, 0)
          let head_tilt := arctan2 (right_ear.2 - left_ear.2) (right_ear.1 - left_ear.1)
          let head_pan := (nose_tip.1 - 0.5) * 2
          let head_depth := dist2 nose_tip nose_bridge
          some [left_pupil_norm.1, left_pupil_norm.2,
            right_pupil_norm.1, right_pupil_norm.2,
            left_pupil.1, left_pupil.2, right_pupil.1, right_pupil.2,
            head_tilt, head_pan, head_depth, lw, rw2, 0.5]

lemma gather_all_in_range {idxs : List Nat} {l : List (Real × Real)}
    (h : ∀ i ∈ idxs, i < l.length) :
    gather idxs l = idxs.map (fun i => l.getD i (0, 0)) := by
  unfold gather
  congr 1
  apply List.filter_eq_self.mpr
  intro i hi
  simpa using h i hi

lemma pupil_centers_total {l : List (Real × Real)} (h : 468 ≤ l.length) :
    ∃ c, pupil_centers l = some c := by
  unfold pupil_centers
  by_cases h3 : 3 ≤ (gather LEFT_IRIS l).length ∧ 3 ≤ (gather RIGHT_IRIS l).length
  · rw [if_pos h3]
    exact ⟨_, rfl⟩
  · rw [if_neg h3]
    have hle : ∀ i ∈ LEFT_EYE, i < l.length := by
      intro i hi
      have : i < 468 := by
        have : ∀ j ∈ LEFT_EYE, j < 468 := by decide
        exact this i hi
      omega
    have hre : ∀ i ∈ RIGHT_EYE, i < l.length := by
      intro i hi
      have : i < 468 := by
        have : ∀ j ∈ RIGHT_EYE, j < 468 := by decide
        exact this i hi
      omega
    have hlen1 : (gather LEFT_EYE l).length = 16 := by
      rw [gather_all_in_range hle]
      simp [LEFT_EYE]
    have hlen2 : (gather RIGHT_EYE l).length = 16 := by
      rw [gather_all_in_range hre]
      simp [RIGHT_EYE]
    rw [if_neg (by omega)]
    exact ⟨_, rfl⟩

/-- C9: feature extraction returns `None` on every landmark list shorter
than the required 468 entries, and likewise — on lists long enough — when
either referenced eye width is non-positive (degenerate geometry). -/
theorem extract_none_short_or_degenerate (l : List (Real × Real)) :
    (l.length < 468 → extract_eye_features l = none) ∧
    (468 ≤ l.length → left_eye_width l ≤ 0 ∨ right_eye_width l ≤ 0 →
      extract_eye_features l = none) := by
  constructor
  · intro hshort
    unfold extract_eye_features
    by_cases h0 : l.length = 0
    · rw [if_pos h0]
    · rw [if_neg h0, if_pos hshort]
  · intro hlong hdeg
    unfold extract_eye_features
    rw [if_neg (by omega), if_neg (by omega)]
    obtain ⟨⟨lp, rp⟩, hc⟩ := pupil_centers_total hlong
    rw [hc]
    have hreq : REQUIRED_INDICES.any (fun i => decide (l.length ≤ i)) = false := by
      rw [List.any_eq_false]
      intro i hi
      have : i < 468 := by
        have : ∀ j ∈ REQUIRED_INDICES, j < 468 := by decide
        exact this i hi
      simp
      omega
    simp only [hreq, Bool.false_eq_true, if_false]
    rw [if_pos hdeg]

set_option maxRecDepth 4000 in
/-- C9 witness: 468 copies of the origin landmark give zero eye widths and
extraction fails. -/
theorem extract_none_witness :
    468 ≤ (List.replicate 468 ((0 : Real), (0 : Real))).length ∧
    left_eye_width (List.replicate 468 ((0 : Real), (0 : Real))) ≤ 0 ∧
    extract_eye_features (List.replicate 468 ((0 : Real), (0 : Real))) = none := by
  have hg : ∀ n : Nat, n < 468 →
      (List.replicate 468 ((0 : Real), (0 : Real))).getD n (0, 0) = (0, 0) := by
    intro n hn
    rw [List.getD_eq_getElem _ _ (by simpa using hn)]
    exact List.getElem_replicate _ _
  have hw : left_eye_width (List.replicate 468 ((0 : Real), (0 : Real))) ≤ 0 := by
    unfold left_eye_width dist2
    rw [hg 33 (by omega), hg 133 (by omega)]
    norm_num
  refine ⟨by simp, hw, ?_⟩
  exact (extract_none_short_or_degenerate _).2 (by simp) (Or.inl hw)

/-!
Gaze estimation.  `TauriGazeTracker.estimate_gaze_enhanced`
(`gaze-ml-improved.py`) is the geometric strategy: iris means, X
inversion, adaptive sensitivity, clamp to `[0,1]`, conversion to
virtual-desktop coordinates, calibration offset and scale, and a final
clamp to the virtual-desktop bounds.  `EyeTrackingML.estimate_gaze`
(`eye-tracking-ml.py`) is the regressor strategy: the trained model is an
external collaborator passed in as `predict`, and the prediction is
scaled to screen coordinates with no clamping at all.
-/

/-- Clamp to `[0,1]` (`max(0.0, min(1.0, v))`). -/
noncomputable def clamp01 (v : Real) : Real := max 0 (min 1 v)

/-- Python `max(monitors, key=lambda m: m.width * m.height)`: the first
monitor of largest area. -/
def maxByArea (ms : List Monitor) : Monitor :=
  match ms with
  | [] => ⟨0, 0, 0, 0, false, ""⟩
  | h :: t =>
      t.foldl (fun best m =>
        if best.width * best.height < m.width * m.height then m else best) h

/-- `TauriGazeTracker.estimate_gaze_enhanced`.  The calibration offsets and
scale factors are tracker state, passed explicitly; `t` is the wall-clock
timestamp. -/
noncomputable def estimate_gaze_enhanced (mesh : MonitorMesh)
    (calibration_offset_x calibration_offset_y scale_factor_x scale_factor_y : Real)
    (l : List (Real × Real)) (t : Real) : Option GazePoint :=
  if l.length < 468 then none
  else
    let left_iris_points := gather LEFT_IRIS l
    let right_iris_points := gather RIGHT_IRIS l
    if left_iris_points.length < 3 ∨ right_iris_points.length < 3 then none
    else
      let left_iris_center := meanPt left_iris_points
      let right_iris_center := meanPt right_iris_points
      let avg_iris_x := (left_iris_center.1 + right_iris_center.1) / 2
      let avg_iris_y := (left_iris_center.2 + right_iris_center.2) / 2
      let corrected_iris_x := 1.0 - avg_iris_x
      let corrected_iris_y := avg_iris_y
      let sensitivity_multiplier : Real :=
        if 1 < mesh.monitors.length then
          let largest := maxByArea mesh.monitors
          match mesh.primary_monitor with
          | some p =>
              min 2.5 (max 1.0
                (Real.rpow
                  (((largest.width * largest.height : Int) : Real) /
                    ((p.width * p.height : Int) : Real)) 0.3))
          | none => 1.5
        else 1.5
      let y_sensitivity_boost : Real := 1.6
      let centered_x :=
        clamp01 ((corrected_iris_x - 0.5) * sensitivity_multiplier + 0.5)
      let centered_y :=
        clamp01 ((corrected_iris_y - 0.5) * sensitivity_multiplier *
          y_sensitivity_boost + 0.5)
      let screen_x0 := (mesh.virtual_left : Real) +
        centered_x * (mesh.virtual_width : Real)
      let screen_y0 := (mesh.virtual_top : Real) +
        centered_y * (mesh.virtual_height : Real)
      let screen_x1 := (screen_x0 + calibration_offset_x) * scale_factor_x
      let screen_y1 := (screen_y0 + calibration_offset_y) * scale_factor_y
      let screen_x := max (mesh.virtual_left : Real)
        (min screen_x1 ((mesh.virtual_right : Real) - 1))
      let screen_y := max (mesh.virtual_top : Real)
        (min screen_y1 ((mesh.virtual_bottom : Real) - 1))
      let confidence : Real :=
        if 4 ≤ left_iris_points.length ∧ 4 ≤ right_iris_points.length then 0.9
        else 0.7
      some ⟨screen_x, screen_y, confidence, t⟩

/-- `EyeTrackingML.estimate_gaze`: the regressor prediction (external
collaborator `predict`) is multiplied by the screen dimensions; the raw
pupil position is read back from the feature vector (indices 4 and 5);
there is no clamping step. -/
def estimate_gaze_ml (screen_width screen_height : Real)
    (predict : List Real → Real × Real) (features : Option (List Real))
    (t : Real) : Option GazePointML :=
  match features with
  | none => none
  | some f =>
      let prediction := predict f
      match f.get? 4, f.get? 5 with
      | some rpx, some rpy =>
          some ⟨prediction.1 * screen_width, prediction.2 * screen_height,
            0.8, t, rpx, rpy⟩
      | _, _ => none

/-- C1 (amended): whenever the geometric estimator
`estimate_gaze_enhanced` returns a point — for any landmark input and any
calibration offset/scale values — and the virtual desktop is at least
1x1, the point lies within the virtual-desktop bounds.  (The regressor
path `estimate_gaze_ml` performs no clamping; see the counterexample.) -/
theorem estimate_enhanced_in_bounds (mesh : MonitorMesh)
    (ox oy sfx sfy : Real) (l : List (Real × Real)) (t : Real) (gp : GazePoint)
    (h : estimate_gaze_enhanced mesh ox oy sfx sfy l t = some gp)
    (hw : 1 ≤ mesh.virtual_width) (hh : 1 ≤ mesh.virtual_height) :
    (mesh.virtual_left : Real) ≤ gp.x ∧
    gp.x < (mesh.virtual_left : Real) + (mesh.virtual_width : Real) ∧
    (mesh.virtual_top : Real) ≤ gp.y ∧
    gp.y < (mesh.virtual_top : Real) + (mesh.virtual_height : Real) := by
  simp only [estimate_gaze_enhanced] at h
  split at h
  · exact absurd h (by simp)
  · split at h
    · exact absurd h (by simp)
    · rw [Option.some_inj] at h
      subst h
      have hwR : (1 : Real) ≤ (mesh.virtual_width : Real) := by exact_mod_cast hw
      have hhR : (1 : Real) ≤ (mesh.virtual_height : Real) := by exact_mod_cast hh
      have hx1 : ((mesh.virtual_left : Int) : Real) ≤ (mesh.virtual_right : Real) - 1 := by
        simp only [MonitorMesh.virtual_right]
        push_cast
        linarith
      have hy1 : ((mesh.virtual_top : Int) : Real) ≤ (mesh.virtual_bottom : Real) - 1 := by
        simp only [MonitorMesh.virtual_bottom]
        push_cast
        linarith
      refine ⟨le_max_left _ _, ?_, le_max_left _ _, ?_⟩
      · refine lt_of_le_of_lt (max_le hx1 (min_le_right _ _)) ?_
        simp only [MonitorMesh.virtual_right]
        push_cast
        linarith
      · refine lt_of_le_of_lt (max_le hy1 (min_le_right _ _)) ?_
        simp only [MonitorMesh.virtual_bottom]
        push_cast
        linarith

lemma getD_replicate {α : Type} (d a : α) (n : Nat) :
    ∀ i : Nat, (List.replicate n a).getD i d = if i < n then a else d := by
  induction n with
  | zero => intro i; simp
  | succ n ih =>
      intro i
      cases i with
      | zero => simp [List.replicate]
      | succ i =>
          simp only [List.replicate, List.getD_cons_succ, ih i]
          by_cases h : i < n
          · rw [if_pos h, if_pos (by omega)]
          · rw [if_neg h, if_neg (by omega)]

set_option maxRecDepth 8000 in
/-- C1 witness: on the fallback single-monitor mesh, with zero calibration
offsets and unit scales, 478 landmarks all at `(1/2, 1/2)` estimate to the
screen centre `(960, 540)`, which the amended theorem places inside the
virtual-desktop bounds. -/
theorem estimate_enhanced_witness :
    estimate_gaze_enhanced (detect_monitor_mesh []) 0 0 1 1
        (List.replicate 478 ((1/2 : Real), (1/2 : Real))) 0 =
      some ⟨960, 540, 9/10, 0⟩ ∧
    1 ≤ (detect_monitor_mesh []).virtual_width ∧
    (((detect_monitor_mesh []).virtual_left : Real) ≤ (⟨960, 540, 9/10, 0⟩ : GazePoint).x ∧
     (⟨960, 540, 9/10, 0⟩ : GazePoint).x <
       ((detect_monitor_mesh []).virtual_left : Real) +
         ((detect_monitor_mesh []).virtual_width : Real) ∧
     ((detect_monitor_mesh []).virtual_top : Real) ≤ (⟨960, 540, 9/10, 0⟩ : GazePoint).y ∧
     (⟨960, 540, 9/10, 0⟩ : GazePoint).y <
       ((detect_monitor_mesh []).virtual_top : Real) +
         ((detect_monitor_mesh []).virtual_height : Real)) := by
  have heval : estimate_gaze_enhanced (detect_monitor_mesh []) 0 0 1 1
      (List.replicate 478 ((1/2 : Real), (1/2 : Real))) 0 =
      some ⟨960, 540, 9/10, 0⟩ := by
    simp only [estimate_gaze_enhanced, detect_monitor_mesh, mkMonitorMesh,
      pickPrimary, gather, LEFT_IRIS, RIGHT_IRIS, getD_replicate, meanPt,
      clamp01, maxByArea, MonitorMesh.virtual_right, MonitorMesh.virtual_bottom,
      List.length_replicate, List.filter_cons, List.filter_nil, List.map_cons,
      List.map_nil, List.sum_cons, List.sum_nil, List.length_cons,
      List.length_nil, GazePoint.mk.injEq]
    norm_num [min_def, max_def]
  refine ⟨heval, by decide, ?_⟩
  exact estimate_enhanced_in_bounds (detect_monitor_mesh []) 0 0 1 1
    (List.replicate 478 ((1/2 : Real), (1/2 : Real))) 0 ⟨960, 540, 9/10, 0⟩
    heval (by decide) (by decide)

/-- C1 counterexample: `EyeTrackingML.estimate_gaze` applies no clamp — a
regressor prediction of `(2, 2)` on a 1920x1080 screen yields the point
`(3840, 2160)`, far outside the virtual-desktop bounds `[0, 1920) x [0, 1080)`. -/
theorem estimate_ml_unclamped :
    estimate_gaze_ml 1920 1080 (fun _ => (2, 2))
        (some (List.replicate 14 (1/2 : Real))) 0 =
      some ⟨3840, 2160, 0.8, 0, 1/2, 1/2⟩ ∧
    ¬ ((0 : Real) ≤ 3840 ∧ (3840 : Real) < 0 + 1920) := by
  constructor
  · simp only [estimate_gaze_ml, GazePointML.mk.injEq]
    rw [List.get?_eq_getElem?, List.get?_eq_getElem?, List.getElem?_replicate]
    norm_num
  · intro hcon
    linarith [hcon.2]
